import Mathlib

/-!
Shallow embedding of `CIME/test_scheduler.py` (class `TestScheduler`), the
phase-parallel system-test driver.  Python methods become Lean functions;
external effects (subprocess results, XML case objects, the durable
`TestStatus` file) become explicit inputs and outputs.  `expect(...)`
failures (fatal scheduler errors / raised exceptions) are modelled with
`Except String`.
-/

set_option autoImplicit false

namespace TestSched

/-- The phases known to the scheduler.  `INIT` is the pseudo-phase
`TEST_START`; `SUBMIT` appears only in the durable status store (constant
`SUBMIT_PHASE` from `CIME.test_status`), never in the scheduler's own
`PHASES` list. -/
inductive Phase where
  | INIT
  | CREATE_NEWCASE
  | XML
  | SETUP
  | SHAREDLIB_BUILD
  | MODEL_BUILD
  | SUBMIT
  | RUN
  deriving DecidableEq, Repr, Fintype

/-- In-memory test statuses used by the scheduler: `TEST_PASS_STATUS`,
`TEST_PEND_STATUS`, `TEST_FAIL_STATUS`.  These are the only status values
the scheduler source ever stores in `self._tests` or passes to
`_update_test_status`. -/
inductive Status where
  | PASS
  | PEND
  | FAIL
  deriving DecidableEq, Repr, Fintype

open Phase Status

/-- The `PHASES` module constant: the full ordered phase list. -/
def PHASES : List Phase :=
  [INIT, CREATE_NEWCASE, XML, SETUP, SHAREDLIB_BUILD, MODEL_BUILD, RUN]

/-- Modelled from the spec: `CORE_PHASES` is defined in `CIME.test_status`,
which is not part of the sources; per the spec's resume semantics the core
phases are the pipeline phases recorded in the status store, with `SUBMIT`
sitting between the builds and `RUN` ("RUN encompasses submit in scheduler
bookkeeping"). -/
def CORE_PHASES : List Phase :=
  [CREATE_NEWCASE, XML, SETUP, SHAREDLIB_BUILD, MODEL_BUILD, SUBMIT, RUN]

/-- The pruned active phase list built in `TestScheduler.__init__`
(`self._phases`): start from `PHASES`, remove `SETUP` under `no_setup`,
both build phases under `no_build`, `RUN` under `no_run`. -/
def activePhases (no_setup no_build no_run : Bool) : List Phase :=
  let l := PHASES
  let l := if no_setup then l.erase SETUP else l
  let l := if no_build then (l.erase SHAREDLIB_BUILD).erase MODEL_BUILD else l
  if no_run then l.erase RUN else l

/-- Derived flag from `__init__`: `self._no_build = no_build or no_setup or
namelists_only`. -/
def derivedNoBuild (no_build no_setup namelists_only : Bool) : Bool :=
  no_build || no_setup || namelists_only

/-- Derived flag from `__init__`: `self._no_run = no_run or self._no_build`. -/
def derivedNoRun (no_run no_build no_setup namelists_only : Bool) : Bool :=
  no_run || derivedNoBuild no_build no_setup namelists_only

/-- A test's in-memory state: the `(phase, status)` pair stored in
`self._tests[test]`. -/
abbrev TestState := Phase × Status

/-- Python `list.index`: the position of an element, raising `ValueError`
when absent. -/
def pyIndex (l : List Phase) (p : Phase) : Except String Nat :=
  if p ∈ l then .ok (l.indexOf p) else .error "ValueError: phase not in list"

/-- `TestScheduler._get_test_status`: the status of a test at a queried
phase.  With no queried phase, or when the query names the current phase,
the stored status is returned; later phases are assumed `PEND` and earlier
phases are assumed `PASS`. -/
def get_test_status (phases : List Phase) (cur : TestState)
    (phase : Option Phase) : Status :=
  match phase with
  | none => cur.2
  | some p =>
    if p = cur.1 then cur.2
    else if phases.indexOf p > phases.indexOf cur.1 then PEND
    else PASS

/-- `TestScheduler._update_test_status`: the guarded in-memory state
update.  On the same phase the old status must be `PEND` and the new one
must differ from `PEND`; on a phase change the old status must be `PASS`,
the new status `PEND`, and the new phase must sit right after the old one
in the active phase list.  Any violated guard is a fatal `expect` error. -/
def update_test_status (phases : List Phase) (cur : TestState)
    (phase : Phase) (status : Status) : Except String TestState :=
  match pyIndex phases phase with
  | .error e => .error e
  | .ok phase_idx =>
    if cur.1 = phase then
      if cur.2 ≠ PEND then
        .error "Only valid to transition from PEND to something else"
      else if status = PEND then
        .error "Cannot transition from PEND -> PEND"
      else
        .ok (phase, status)
    else
      if cur.2 ≠ PASS then
        .error "Why did we move on to next phase when prior phase did not pass?"
      else if status ≠ PEND then
        .error "New phase should be set to pending status"
      else
        match pyIndex phases cur.1 with
        | .error e => .error e
        | .ok old_idx =>
          if (old_idx : Int) = (phase_idx : Int) - 1 then
            .ok (phase, status)
          else
            .error "Skipped phase?"

/-- `q` directly follows `p` somewhere in the list `l`. -/
def IsImmSuccessor (l : List Phase) (p q : Phase) : Prop :=
  ∃ i, l.get? i = some p ∧ l.get? (i + 1) = some q

instance (l : List Phase) (p q : Phase) : Decidable (IsImmSuccessor l p q) := by
  unfold IsImmSuccessor
  have : (∃ i, l.get? i = some p ∧ l.get? (i + 1) = some q) ↔
      (∃ i < l.length, l.get? i = some p ∧ l.get? (i + 1) = some q) := by
    constructor
    · rintro ⟨i, h1, h2⟩
      exact ⟨i, by
        by_contra hlen
        rw [List.get?_eq_none.mpr (Nat.le_of_not_lt hlen)] at h1
        exact Option.noConfusion h1, h1, h2⟩
    · rintro ⟨i, _, h1, h2⟩
      exact ⟨i, h1, h2⟩
  exact decidable_of_iff' _ this

theorem indexOf_eq_of_get? {l : List Phase} (hnd : l.Nodup) {i : Nat} {a : Phase}
    (h : l.get? i = some a) : l.indexOf a = i := by
  obtain ⟨hlt, hget⟩ := List.get?_eq_some.mp h
  have hmem : a ∈ l := List.get?_mem h
  have hidx : l.indexOf a < l.length := List.indexOf_lt_length.mpr hmem
  have hfin : (⟨l.indexOf a, hidx⟩ : Fin l.length) = ⟨i, hlt⟩ :=
    (List.Nodup.get_inj_iff hnd).mp (by rw [List.indexOf_get, hget])
  exact congrArg Fin.val hfin

theorem get?_indexOf {l : List Phase} {a : Phase} (h : a ∈ l) :
    l.get? (l.indexOf a) = some a :=
  List.get?_eq_some.mpr ⟨List.indexOf_lt_length.mpr h, List.indexOf_get _⟩

theorem isImmSuccessor_iff {l : List Phase} (hnd : l.Nodup) (p q : Phase) :
    IsImmSuccessor l p q ↔ p ∈ l ∧ q ∈ l ∧ l.indexOf p + 1 = l.indexOf q := by
  constructor
  · rintro ⟨i, h1, h2⟩
    refine ⟨List.get?_mem h1, List.get?_mem h2, ?_⟩
    rw [indexOf_eq_of_get? hnd h1, indexOf_eq_of_get? hnd h2]
  · rintro ⟨hp, hq, hidx⟩
    exact ⟨l.indexOf p, get?_indexOf hp, by rw [hidx]; exact get?_indexOf hq⟩

theorem not_isImmSuccessor_self {l : List Phase} (hnd : l.Nodup) (p : Phase) :
    ¬ IsImmSuccessor l p p := by
  rw [isImmSuccessor_iff hnd]
  rintro ⟨-, -, h⟩
  omega

/-- C2: an in-memory `TestState` update succeeds exactly when it has one of
two shapes — same phase with old status `PEND` moving to `PASS` or `FAIL`,
or a move to the immediate successor phase in the active list with old
status `PASS` and new status `PEND` — and a successful update installs
exactly the requested pair.  Any other update is a fatal `expect` error. -/
theorem update_test_status_shapes (phases : List Phase) (hnd : phases.Nodup)
    (cur : TestState) (p : Phase) (s : Status) (hmem : cur.1 ∈ phases) :
    (update_test_status phases cur p s = Except.ok (p, s) ↔
      ((cur.1 = p ∧ cur.2 = PEND ∧ (s = PASS ∨ s = FAIL)) ∨
       (IsImmSuccessor phases cur.1 p ∧ cur.2 = PASS ∧ s = PEND))) ∧
    (∀ st', update_test_status phases cur p s = Except.ok st' → st' = (p, s)) := by
  obtain ⟨cp, cs⟩ := cur
  simp only at hmem
  constructor
  · by_cases hp : p ∈ phases
    · by_cases hcp : cp = p
      · subst hcp
        simp only [update_test_status, pyIndex, if_pos hp, if_pos rfl, if_true]
        constructor
        · intro h
          split_ifs at h with h1 h2
          push_neg at h1
          exact Or.inl ⟨by trivial, h1, by cases s <;> simp_all⟩
        · rintro (⟨-, hPEND, hs⟩ | ⟨hsucc, -, -⟩)
          · subst hPEND
            rw [if_neg (by simp), if_neg (by rcases hs with h | h <;> subst h <;> simp)]
          · exact absurd hsucc (not_isImmSuccessor_self hnd cp)
      · simp only [update_test_status, pyIndex, if_pos hp]
        rw [if_neg hcp]
        constructor
        · intro h
          split_ifs at h with h1 h2
          push_neg at h1 h2
          simp only [Int.reduceNeg] at h
          split_ifs at h with hidx
          exact Or.inr ⟨(isImmSuccessor_iff hnd cp p).mpr ⟨hmem, hp, by omega⟩, h1, h2⟩
        · rintro (⟨h1, -, -⟩ | ⟨hsucc, h2, h3⟩)
          · exact absurd h1 hcp
          · subst h2; subst h3
            rw [if_neg (by simp), if_neg (by simp)]
            obtain ⟨-, -, hidx⟩ := (isImmSuccessor_iff hnd cp p).mp hsucc
            simp only [if_pos hmem]
            rw [if_pos (by omega)]
    · simp only [update_test_status, pyIndex, if_neg hp]
      constructor
      · intro h; simp at h
      · rintro (⟨h1, -, -⟩ | ⟨hsucc, -, -⟩)
        · exact absurd (h1 ▸ hmem) hp
        · obtain ⟨i, -, h2⟩ := hsucc
          exact absurd (List.get?_mem h2) hp
  · intro st' h
    unfold update_test_status at h
    repeat' split at h
    all_goals simp_all

theorem activePhases_nodup (ns nb nr : Bool) : (activePhases ns nb nr).Nodup := by
  cases ns <;> cases nb <;> cases nr <;> decide

/-- Configuration fields of the scheduler consulted by
`_get_procs_needed`: `self._no_batch`, the `Config.serialize_sharedlib_builds`
flag, and `self._model_build_cost`. -/
structure SchedConfig where
  no_batch : Bool
  serialize_sharedlib_builds : Bool
  model_build_cost : Nat

/-- The `build_group_dep_phases` list from `_get_procs_needed`. -/
def buildGroupDepPhases : List Phase := [XML, SHAREDLIB_BUILD, MODEL_BUILD]

/-- `TestScheduler._get_procs_needed`: cores needed to run `phase` of a
test, or `none` when the phase is currently ineligible.  `isFirst` and
`leaderSt` stand for `self._get_build_group(test)` and the in-memory state
of the group's first test; `threadsInFlight` lists the phases currently
running; `totalPes` is the case's `TOTALPES` read from `env_mach_pes.xml`. -/
def get_procs_needed (cfg : SchedConfig) (phases : List Phase)
    (isFirst : Bool) (leaderSt : TestState) (phase : Phase)
    (threadsInFlight : List Phase) (no_batch : Bool) (totalPes : Nat) :
    Option Nat :=
  if !isFirst && phase ∈ buildGroupDepPhases then
    if get_test_status phases leaderSt (some phase) = PEND then
      none
    else
      some 1
  else if phase = RUN && (cfg.no_batch || no_batch) then
    some totalPes
  else if phase = SHAREDLIB_BUILD then
    if cfg.serialize_sharedlib_builds && threadsInFlight.contains SHAREDLIB_BUILD
    then none
    else some 1
  else if phase = MODEL_BUILD then
    some cfg.model_build_cost
  else
    some 1

/-- The successor lookup `self._phases[self._phases.index(test_phase) + 1]`
from `_producer_indv_test_launch` (an out-of-range index raises). -/
def nextPhase (phases : List Phase) (p : Phase) : Option Phase :=
  phases.get? (phases.indexOf p + 1)

/-- Result of one `_producer_indv_test_launch` call.  `fatal` is a raised
`expect` error; `notLaunched` is a `False` return with nothing done;
`instantFail` is the over-budget RUN path (status-file writes, new
in-memory state, returns `True`); `launched` debits the given cores, sets
the new in-memory state and spawns the worker (returns `True`). -/
inductive LaunchResult where
  | fatal (msg : String)
  | notLaunched
  | instantFail (writes : List (Phase × Status)) (st : TestState)
  | launched (st : TestState) (reserved : Nat)
  deriving DecidableEq, Repr

/-- The `return` value of `_producer_indv_test_launch` for each outcome. -/
def LaunchResult.returnedTrue : LaunchResult → Bool
  | .fatal _ => false
  | .notLaunched => false
  | .instantFail _ _ => true
  | .launched _ _ => true

/-- `TestScheduler._producer_indv_test_launch`: launch the next phase of a
test if possible.  `procsNeeded` is the value of
`self._get_procs_needed(test, next_phase, threads_in_flight)`; `pool` is
`self._proc_pool` and `avail` is `self._procs_avail`. -/
def producer_indv_test_launch (phases : List Phase) (st : TestState)
    (procsNeeded : Option Nat) (pool avail : Nat) : LaunchResult :=
  if st.2 = PEND then
    .fatal "test status is PEND"
  else
    match nextPhase phases st.1 with
    | none => .fatal "IndexError: no next phase"
    | some next =>
      match procsNeeded with
      | none => .notLaunched
      | some c =>
        if c > pool then
          if next ≠ RUN then
            .fatal ("Test phase " ++ reprStr next ++
              " requested more (" ++ toString c ++ ") than entire pool")
          else
            match update_test_status phases st next PEND with
            | .error e => .fatal e
            | .ok st1 =>
              match update_test_status phases st1 next FAIL with
              | .error e => .fatal e
              | .ok st2 => .instantFail [(SUBMIT, PASS), (RUN, FAIL)] st2
        else if c ≤ avail then
          match update_test_status phases st next PEND with
          | .error e => .fatal e
          | .ok st1 => .launched st1 c
        else
          .notLaunched

/-- Outcome of one phase method: either an uncaught exception (an `expect`
failure, modelled as `Except.error` with the message) or the returned
`(success, errput)` pair, together with the `TestStatus`-file writes the
scheduler itself performed from inside the phase method. -/
structure PhaseOutcome where
  result : Except String (Bool × String)
  writes : List (Phase × Status)
  deriving Repr

/-- Modelled from the spec: `TESTS_FAILED_ERR_CODE` lives in `CIME.utils`
(not among the sources); it is the designated non-fatal "tests-failed"
exit code of `case.cmpgen_namelists`. -/
def TESTS_FAILED_ERR_CODE : Int := 100

/-- `TestScheduler._sharedlib_build_phase`.  For a follower (`isFirst =
false`) the leader's status at `SHAREDLIB_BUILD` decides: `PASS` gives an
immediate `(True, "")` short-circuit, anything else gives `(False,
"Cannot use build for test ... because it failed")`.  For the leader,
`buildResult` is the `_shell_cmd_for_phase` result of
`./case.build --sharedlib-only` and `cmpgenStat` the exit status of
`case.cmpgen_namelists`; a `cmpgenStat` that is neither `0` nor
`TESTS_FAILED_ERR_CODE` writes `SETUP=FAIL` to the status file and
re-raises. -/
def sharedlib_build_phase (phases : List Phase) (isFirst : Bool)
    (firstTest : String) (leaderSt : TestState)
    (buildResult : Bool × String) (cmpgenStat : Int) : PhaseOutcome :=
  if !isFirst then
    if get_test_status phases leaderSt (some SHAREDLIB_BUILD) = PASS then
      ⟨.ok (true, ""), []⟩
    else
      ⟨.ok (false, "Cannot use build for test " ++ firstTest ++
        " because it failed"), []⟩
  else
    if cmpgenStat = 0 ∨ cmpgenStat = TESTS_FAILED_ERR_CODE then
      ⟨.ok buildResult, []⟩
    else
      ⟨.error "Fatal error in case.cmpgen_namelists", [(SETUP, FAIL)]⟩

/-- `TestScheduler._model_build_phase`.  For a follower whose leader's
status at `MODEL_BUILD` is `PASS`, the `post_build` hook is called on the
follower's case (the returned `Bool` records this) and the phase
short-circuits to `(True, "")`; any other leader status gives the same
"Cannot use build" failure as the sharedlib phase.  The leader runs
`./case.build --model-only` (`buildResult`). -/
def model_build_phase (phases : List Phase) (isFirst : Bool)
    (firstTest : String) (leaderSt : TestState)
    (buildResult : Bool × String) : PhaseOutcome × Bool :=
  if !isFirst then
    if get_test_status phases leaderSt (some MODEL_BUILD) = PASS then
      (⟨.ok (true, ""), []⟩, true)
    else
      (⟨.ok (false, "Cannot use build for test " ++ firstTest ++
        " because it failed"), []⟩, false)
  else
    (⟨.ok buildResult, []⟩, false)

/-- The build-group block of `TestScheduler._xml_phase` (the lines guarded
by `self._get_build_group(test)`): the leader records the case's `EXEROOT`
into `self._build_group_exeroots` (which must still be unset), a follower
requires the recorded `EXEROOT` (an `expect` failure when it is missing)
and overwrites its own case's `EXEROOT` with it.  Returns the new
recorded-exeroot slot and the value written into the case, if any. -/
def xml_phase_group_part (isFirst : Bool) (groupExeroot : Option String)
    (caseExeroot : String) :
    Except String (Option String × Option String) :=
  if isFirst then
    match groupExeroot with
    | some _ => .error "Should not already have exeroot"
    | none => .ok (some caseExeroot, none)
  else
    match groupExeroot with
    | none => .error "Should already have exeroot"
    | some e => .ok (groupExeroot, some e)

/-- `TestScheduler._run_phase`.  When the test's case options contain the
`B` opt the phase is skipped: `SUBMIT=PASS` and `RUN=PASS` are written to
the status file and `(True, "SKIPPED")` returned without any subprocess.
Otherwise `./case.submit` runs with flags derived from configuration
(`submitResult` is its `_shell_cmd_for_phase` outcome). -/
def run_phase (hasBOpt : Bool) (submitResult : Bool × String) :
    PhaseOutcome :=
  if hasBOpt then
    ⟨.ok (true, "SKIPPED"), [(SUBMIT, PASS), (RUN, PASS)]⟩
  else
    ⟨.ok submitResult, []⟩

/-- The tail of `TestScheduler._setup_phase`: after `./case.setup`
(`setupResult`) and the tolerated `cmpgen` call, single-exe mode verifies
`support_single_exe`; a verification failure writes `SETUP=FAIL` to the
status file and re-raises. -/
def setup_phase_tail (singleExe : Bool) (supportOk : Bool)
    (setupResult : Bool × String) : PhaseOutcome :=
  if singleExe ∧ ¬ supportOk then
    ⟨.error "support_single_exe failed", [(SETUP, FAIL)]⟩
  else
    ⟨.ok setupResult, []⟩

/-- Observable actions of one `_consumer` worker invocation, in order:
running the phase method, an in-memory `_update_test_status`, a durable
`_update_test_status_file`, and the `README.case` append after XML. -/
inductive Event where
  | phaseExec (p : Phase)
  | stateUpdate (p : Phase) (s : Status)
  | fileWrite (p : Phase) (s : Status)
  | readmeAppend
  deriving DecidableEq, Repr

/-- The write condition of `_consumer` (lines deciding when the scheduler
is responsible for updating the `TestStatus` file): `CREATE_NEWCASE` and
`XML` always, the two build phases only for non-leaders. -/
def consumerWritesStatusFile (isFirst : Bool) (phase : Phase) : Bool :=
  (phase = CREATE_NEWCASE || phase = XML) ||
    (!isFirst && (phase = SHAREDLIB_BUILD || phase = MODEL_BUILD))

/-- The straight-line body of `_consumer` for one phase, given whether the
phase method succeeded: compute the status (`PEND` for a batch-mode RUN
success, otherwise `PASS`/`FAIL`), record it in memory unless it is
`PEND`, write the status file when responsible, append the README line
after XML. -/
def consumerSolo (no_batch isFirst : Bool) (phase : Phase)
    (success : Bool) : List Event :=
  let status := if success
    then (if phase = RUN && !no_batch then PEND else PASS)
    else FAIL
  [Event.phaseExec phase] ++
  (if status ≠ PEND then [Event.stateUpdate phase status] else []) ++
  (if consumerWritesStatusFile isFirst phase
    then [Event.fileWrite phase status] else []) ++
  (if phase = XML then [Event.readmeAppend] else [])

/-- `TestScheduler._consumer` as its ordered event trace.  `res` gives the
success of each phase method.  After a successful `MODEL_BUILD` with the
run phase kept and batch enabled, the worker sets `(RUN, PEND)` and
recursively invokes `_consumer` on `RUN` within the same call. -/
def consumer (no_run no_batch isFirst : Bool) (res : Phase → Bool)
    (phase : Phase) : List Event :=
  let evs := consumerSolo no_batch isFirst phase (res phase)
  if h : (res phase && !no_run && !no_batch) = true ∧ phase = MODEL_BUILD
  then
    evs ++ Event.stateUpdate RUN PEND ::
      consumer no_run no_batch isFirst res RUN
  else
    evs
termination_by (if phase = MODEL_BUILD then 1 else 0)
decreasing_by simp [h.2]

/-- One invocation result of `run_cmd` inside `_shell_cmd_for_phase`. -/
structure CmdResult where
  rc : Int
  output : String
  errput : String
  deriving Repr

/-- The `"bad interpreter" in output` test of `_shell_cmd_for_phase`. -/
def containsBadInterpreter (output : String) : Bool :=
  decide ("bad interpreter".toList <:+: output.toList)

/-- `TestScheduler._shell_cmd_for_phase`: the `while True` retry loop over
successive subprocess invocations.  The list supplies the result of each
invocation in turn; the returned `Nat` counts how many invocations were
consumed.  `none` means every supplied invocation failed with
"bad interpreter" in its output, so the loop is still running (it retries
without bound). -/
def shell_cmd_for_phase : List CmdResult → Option (Bool × String × Nat)
  | [] => none
  | r :: rest =>
    if r.rc ≠ 0 then
      if containsBadInterpreter r.output then
        match shell_cmd_for_phase rest with
        | none => none
        | some (b, e, n) => some (b, e, n + 1)
      else
        some (false, r.errput, 1)
    else
      some (true, r.errput, 1)

/-- An invocation that makes `_shell_cmd_for_phase` loop again: a non-zero
exit whose output contains "bad interpreter". -/
def badInterpRetry (r : CmdResult) : Bool :=
  decide (r.rc ≠ 0) && containsBadInterpreter r.output

/-- Declarative description of the retry loop: skip the longest prefix of
bad-interpreter failures, then answer from the first decisive invocation
(success iff its exit status is zero), reporting how many invocations ran. -/
def shellCmdFirstDecisive (rs : List CmdResult) : Option (Bool × String × Nat) :=
  match rs.dropWhile badInterpRetry with
  | [] => none
  | r :: _ =>
    some (decide (r.rc = 0), r.errput, (rs.takeWhile badInterpRetry).length + 1)

/-- A record of the durable per-test `TestStatus` store: phase, status and
optional comment.  Modelled from the spec: the store itself lives in
`CIME.test_status`, outside the sources; records are kept and iterated in
phase order. -/
structure StoreRec where
  phase : Phase
  status : Status
  comment : Option String
  deriving DecidableEq, Repr

/-- Modelled from the spec: the rerun comment attached when a `FAIL`
record is promoted back to `PEND` during resume. -/
def TEST_RERUN_COMMENT : String := "(RERUN)"

/-- Modelled from the spec: `TestStatus.set_status` — replace the record
of the phase in place, or append a fresh record. -/
def storeSetStatus : List StoreRec → Phase → Status → Option String →
    List StoreRec
  | [], p, s, c => [⟨p, s, c⟩]
  | r :: rest, p, s, c =>
    if r.phase = p then ⟨p, s, c⟩ :: rest
    else r :: storeSetStatus rest p s c

/-- The per-record loop of the `use_existing` replay in
`TestScheduler.__init__`: walk the records; non-core phases are ignored;
the first core record with status `PEND` or `FAIL` stops the walk (a
`FAIL` is rewritten in the store to `PEND` with the rerun comment); any
other core record except `SUBMIT` advances the in-memory state through
`_update_test_status`. -/
def replayGo (phases : List Phase) (st : TestState) (store : List StoreRec) :
    List StoreRec → Except String (TestState × List StoreRec)
  | [] => .ok (st, store)
  | r :: rest =>
    if r.phase ∈ CORE_PHASES then
      if r.status = PEND ∨ r.status = FAIL then
        let store' := if r.status = FAIL
          then storeSetStatus store r.phase PEND (some TEST_RERUN_COMMENT)
          else store
        .ok (st, store')
      else
        if r.phase ≠ SUBMIT then
          match update_test_status phases st r.phase PEND with
          | .error e => .error e
          | .ok st1 =>
            match update_test_status phases st1 r.phase r.status with
            | .error e => .error e
            | .ok st2 => replayGo phases st2 store rest
        else
          replayGo phases st store rest
    else
      replayGo phases st store rest

/-- The `use_existing` branch of `TestScheduler.__init__` for one test:
optionally pre-mark `SHAREDLIB_BUILD` as `PEND` (forced rebuild), then
replay the store starting from the freshly initialised `(INIT, PASS)`
in-memory state. -/
def use_existing_replay (phases : List Phase) (store : List StoreRec)
    (force_rebuild : Bool) : Except String (TestState × List StoreRec) :=
  let store1 := if force_rebuild
    then storeSetStatus store SHAREDLIB_BUILD PEND none
    else store
  replayGo phases (INIT, PASS) store1 store1

/-- The two in-memory updates performed for a passed core record during
replay, lifted to `Except` for folding. -/
def coreAdvance (phases : List Phase) (st : Except String TestState)
    (r : StoreRec) : Except String TestState :=
  match st with
  | .error e => .error e
  | .ok s =>
    match update_test_status phases s r.phase PEND with
    | .error e => .error e
    | .ok s1 => update_test_status phases s1 r.phase r.status

/-- A record at which the replay walk stops: a core record whose status is
`PEND` or `FAIL`. -/
def stopRec (r : StoreRec) : Bool :=
  decide (r.status = PEND) || decide (r.status = FAIL)

/-- Declarative description of the claimed resume semantics, following the
claim's words: pre-mark `SHAREDLIB_BUILD=PEND` on forced rebuild; among
the core records, the walk stops at the first whose status is `PEND` or
`FAIL`, rewriting a `FAIL` to `PEND` with the rerun comment; the earlier
(necessarily passed) core records other than `SUBMIT` each advance the
in-memory state; `SUBMIT` records never cause a transition. -/
def replaySpec (phases : List Phase) (store : List StoreRec)
    (force_rebuild : Bool) : Except String (TestState × List StoreRec) :=
  let store1 := if force_rebuild
    then storeSetStatus store SHAREDLIB_BUILD PEND none
    else store
  let core := store1.filter (fun r => decide (r.phase ∈ CORE_PHASES))
  let pre := core.takeWhile (fun r => !stopRec r)
  let rest := core.dropWhile (fun r => !stopRec r)
  let st := (pre.filter (fun r => decide (r.phase ≠ SUBMIT))).foldl
    (coreAdvance phases) (.ok (INIT, PASS))
  let store2 := match rest with
    | [] => store1
    | r :: _ => if r.status = FAIL
      then storeSetStatus store1 r.phase PEND (some TEST_RERUN_COMMENT)
      else store1
  match st with
  | .error e => .error e
  | .ok s => .ok (s, store2)

/-- `__init__`: `self._model_build_cost` is
`min(16, int((GMAKE_J * 2) / 3) + 1)` when the configuration computes the
model-build cost, else `4`.  (For the machine-config integers involved,
Python's float division followed by `int` is exact floor division.) -/
def model_build_cost (calculate_mode_build_cost : Bool) (gmake_j : Nat) :
    Nat :=
  if calculate_mode_build_cost then min 16 (gmake_j * 2 / 3 + 1) else 4

/-- The tail of `_xml_phase`: scale back build parallelism on small
machines.  Returns the case's resulting `GMAKE_J` and the new
`self._model_build_cost`. -/
def xml_gmake_clamp (modelBuildCost proc_pool case_gmake_j : Nat) :
    Nat × Nat :=
  if modelBuildCost > proc_pool then (proc_pool, proc_pool)
  else (case_gmake_j, modelBuildCost)

/-- `__init__`: `self._proc_pool` is the explicit `proc_pool` when given,
else `int(MAX_TASKS_PER_NODE * 1.25)` (1.25 is exactly 5/4 in binary
floating point, so this is `5n/4` rounded down). -/
def proc_pool_of (proc_pool : Option Nat) (max_tasks_per_node : Nat) : Nat :=
  match proc_pool with
  | some p => p
  | none => max_tasks_per_node * 5 / 4

/-- `__init__`: `self._parallel_jobs` is the explicit `parallel_jobs` when
given, else `min(len(test_names), machine limit)` where the machine limit
is `NTEST_PARALLEL_JOBS`, falling back to `MAX_MPITASKS_PER_NODE`. -/
def parallel_jobs_of (parallel_jobs : Option Nat)
    (ntest_parallel_jobs : Option Nat) (max_mpitasks_per_node : Nat)
    (num_tests : Nat) : Nat :=
  match parallel_jobs with
  | some p => p
  | none =>
    let mach := match ntest_parallel_jobs with
      | some m => m
      | none => max_mpitasks_per_node
    min num_tests mach

/-- C8: the model-build core cost is `min(16, floor(2*GMAKE_J/3)+1)` when
the configuration computes it and `4` otherwise, and the XML phase clamps
the case's `GMAKE_J` and the stored cost down to the core budget exactly
when the cost exceeds the budget. -/
theorem model_build_cost_formula (cb : Bool) (j pool cj : Nat) :
    model_build_cost cb j = (if cb then min 16 (2 * j / 3 + 1) else 4) ∧
    (model_build_cost cb j > pool →
      xml_gmake_clamp (model_build_cost cb j) pool cj = (pool, pool)) ∧
    (model_build_cost cb j ≤ pool →
      xml_gmake_clamp (model_build_cost cb j) pool cj =
        (cj, model_build_cost cb j)) := by
  refine ⟨by simp [model_build_cost, Nat.mul_comm], ?_, ?_⟩
  · intro h
    simp [xml_gmake_clamp, h]
  · intro h
    simp [xml_gmake_clamp, Nat.not_lt.mpr h]

theorem model_build_cost_formula_witness :
    model_build_cost true 12 = (if true then min 16 (2 * 12 / 3 + 1) else 4) ∧
    (model_build_cost true 12 > 8 →
      xml_gmake_clamp (model_build_cost true 12) 8 12 = (8, 8)) ∧
    (model_build_cost true 12 ≤ 8 →
      xml_gmake_clamp (model_build_cost true 12) 8 12 =
        (12, model_build_cost true 12)) :=
  model_build_cost_formula true 12 8 12

/-- C9: without an explicit `proc_pool` the core budget is
`floor(1.25 * MAX_TASKS_PER_NODE)`, and without explicit `parallel_jobs`
the worker-slot count equals (hence is capped at) the minimum of the
number of tests and the machine's parallel-jobs limit. -/
theorem resource_pool_defaults (m num_tests mm : Nat) (nj : Option Nat) :
    proc_pool_of none m = 5 * m / 4 ∧
    4 * proc_pool_of none m ≤ 5 * m ∧
    5 * m < 4 * proc_pool_of none m + 4 ∧
    parallel_jobs_of none nj mm num_tests = min num_tests (nj.getD mm) ∧
    parallel_jobs_of none nj mm num_tests ≤ num_tests ∧
    parallel_jobs_of none nj mm num_tests ≤ nj.getD mm := by
  have h1 : proc_pool_of none m = 5 * m / 4 := by
    simp [proc_pool_of, Nat.mul_comm]
  have h2 : parallel_jobs_of none nj mm num_tests = min num_tests (nj.getD mm) := by
    cases nj <;> simp [parallel_jobs_of, Option.getD]
  refine ⟨h1, ?_, ?_, h2, ?_, ?_⟩
  · rw [h1]; omega
  · rw [h1]; omega
  · rw [h2]; exact Nat.min_le_left _ _
  · rw [h2]; exact Nat.min_le_right _ _

/-- C10: a status query for a phase other than the current one ignores
recorded history — strictly later phases read as `PEND`, strictly earlier
ones as `PASS`, only the current phase reads its stored status — and
consequently a follower's cost query for a build-group-gated phase returns
`none` whenever the leader failed at an earlier phase. -/
theorem get_test_status_outside_current (phases : List Phase)
    (cur : TestState) (p : Phase) (hp : p ∈ phases) (hc : cur.1 ∈ phases) :
    (p = cur.1 → get_test_status phases cur (some p) = cur.2) ∧
    (phases.indexOf p > phases.indexOf cur.1 →
      get_test_status phases cur (some p) = PEND) ∧
    (p ≠ cur.1 → phases.indexOf p < phases.indexOf cur.1 →
      get_test_status phases cur (some p) = PASS) ∧
    (∀ (cfg : SchedConfig) (infl : List Phase) (nb : Bool) (tp : Nat),
      p ∈ buildGroupDepPhases → cur.2 = FAIL →
      phases.indexOf p > phases.indexOf cur.1 →
      get_procs_needed cfg phases false cur p infl nb tp = none) := by
  refine ⟨?_, ?_, ?_, ?_⟩
  · intro h
    simp [get_test_status, h]
  · intro h
    have hne : p ≠ cur.1 := by
      intro he
      rw [he] at h
      omega
    simp [get_test_status, hne, h]
  · intro hne h
    simp only [get_test_status]
    rw [if_neg hne, if_neg (by omega)]
  · intro cfg infl nb tp hdep hfail hgt
    have hne : p ≠ cur.1 := by
      intro he
      rw [he] at hgt
      omega
    have hstat : get_test_status phases cur (some p) = PEND := by
      simp only [get_test_status]
      rw [if_neg hne, if_pos hgt]
    simp [get_procs_needed, hdep, hstat]

theorem get_test_status_outside_current_witness :
    (MODEL_BUILD = (SETUP, FAIL).1 →
      get_test_status PHASES (SETUP, FAIL) (some MODEL_BUILD) = FAIL) ∧
    (PHASES.indexOf MODEL_BUILD > PHASES.indexOf (SETUP, FAIL).1 →
      get_test_status PHASES (SETUP, FAIL) (some MODEL_BUILD) = PEND) ∧
    (MODEL_BUILD ≠ (SETUP, FAIL).1 →
      PHASES.indexOf MODEL_BUILD < PHASES.indexOf (SETUP, FAIL).1 →
      get_test_status PHASES (SETUP, FAIL) (some MODEL_BUILD) = PASS) ∧
    (∀ (cfg : SchedConfig) (infl : List Phase) (nb : Bool) (tp : Nat),
      MODEL_BUILD ∈ buildGroupDepPhases → (SETUP, FAIL).2 = FAIL →
      PHASES.indexOf MODEL_BUILD > PHASES.indexOf (SETUP, FAIL).1 →
      get_procs_needed cfg PHASES false (SETUP, FAIL) MODEL_BUILD infl nb tp = none) :=
  get_test_status_outside_current PHASES (SETUP, FAIL) MODEL_BUILD (by decide) (by decide)

/-- C1 (amended): for a follower, the three build-group-gated phases are
gated on the leader's status at that phase: `PEND` makes the cost query
return `none` and the producer launch nothing; any other status yields
cost 1.  A leader `PASS` at `SHAREDLIB_BUILD`/`MODEL_BUILD` makes the
follower's phase short-circuit without a build (the model-build follower
running only the `post_build` hook); any other leader status there fails
the follower's phase with "Cannot use build for test ... because it
failed".  A follower's XML phase with no recorded group `EXEROOT` (the
state left by a leader XML failure) instead dies on the
missing-exeroot assertion. -/
theorem build_group_gating (phases : List Phase) (L ce : String)
    (leaderSt st : TestState) (P : Phase) (pool avail tp : Nat)
    (infl : List Phase) (cfg : SchedConfig)
    (buildRes : Bool × String) (cmpgenStat : Int)
    (hP : P ∈ buildGroupDepPhases) (hst : st.2 = PASS)
    (hnext : (nextPhase phases st.1).isSome = true) :
    (get_test_status phases leaderSt (some P) = PEND →
      get_procs_needed cfg phases false leaderSt P infl false tp = none ∧
      producer_indv_test_launch phases st none pool avail = .notLaunched) ∧
    (get_test_status phases leaderSt (some P) ≠ PEND →
      get_procs_needed cfg phases false leaderSt P infl false tp = some 1) ∧
    (get_test_status phases leaderSt (some SHAREDLIB_BUILD) = PASS →
      sharedlib_build_phase phases false L leaderSt buildRes cmpgenStat =
        ⟨.ok (true, ""), []⟩) ∧
    (get_test_status phases leaderSt (some MODEL_BUILD) = PASS →
      model_build_phase phases false L leaderSt buildRes =
        (⟨.ok (true, ""), []⟩, true)) ∧
    (get_test_status phases leaderSt (some SHAREDLIB_BUILD) ≠ PASS →
      sharedlib_build_phase phases false L leaderSt buildRes cmpgenStat =
        ⟨.ok (false, "Cannot use build for test " ++ L ++
          " because it failed"), []⟩) ∧
    (get_test_status phases leaderSt (some MODEL_BUILD) ≠ PASS →
      model_build_phase phases false L leaderSt buildRes =
        (⟨.ok (false, "Cannot use build for test " ++ L ++
          " because it failed"), []⟩, false)) ∧
    (xml_phase_group_part false none ce =
      .error "Should already have exeroot") := by
  obtain ⟨next, hnx⟩ := Option.isSome_iff_exists.mp hnext
  refine ⟨?_, ?_, ?_, ?_, ?_, ?_, rfl⟩
  · intro h
    constructor
    · simp [get_procs_needed, hP, h]
    · simp [producer_indv_test_launch, hst, hnx]
  · intro h
    simp [get_procs_needed, hP, h]
  · intro h
    simp [sharedlib_build_phase, h]
  · intro h
    simp [model_build_phase, h]
  · intro h
    simp [sharedlib_build_phase, h]
  · intro h
    simp [model_build_phase, h]

theorem build_group_gating_witness :
    (get_test_status PHASES (XML, PEND) (some XML) = PEND →
      get_procs_needed ⟨false, false, 4⟩ PHASES false (XML, PEND) XML [] false 4 = none ∧
      producer_indv_test_launch PHASES (INIT, PASS) none 8 8 = .notLaunched) ∧
    (get_test_status PHASES (XML, PEND) (some XML) ≠ PEND →
      get_procs_needed ⟨false, false, 4⟩ PHASES false (XML, PEND) XML [] false 4 = some 1) ∧
    (get_test_status PHASES (XML, PEND) (some SHAREDLIB_BUILD) = PASS →
      sharedlib_build_phase PHASES false "T1" (XML, PEND) (true, "") 0 =
        ⟨.ok (true, ""), []⟩) ∧
    (get_test_status PHASES (XML, PEND) (some MODEL_BUILD) = PASS →
      model_build_phase PHASES false "T1" (XML, PEND) (true, "") =
        (⟨.ok (true, ""), []⟩, true)) ∧
    (get_test_status PHASES (XML, PEND) (some SHAREDLIB_BUILD) ≠ PASS →
      sharedlib_build_phase PHASES false "T1" (XML, PEND) (true, "") 0 =
        ⟨.ok (false, "Cannot use build for test " ++ "T1" ++
          " because it failed"), []⟩) ∧
    (get_test_status PHASES (XML, PEND) (some MODEL_BUILD) ≠ PASS →
      model_build_phase PHASES false "T1" (XML, PEND) (true, "") =
        (⟨.ok (false, "Cannot use build for test " ++ "T1" ++
          " because it failed"), []⟩, false)) ∧
    (xml_phase_group_part false none "/exe" =
      .error "Should already have exeroot") :=
  build_group_gating PHASES "T1" "/exe" (XML, PEND) (INIT, PASS) XML 8 8 4 []
    ⟨false, false, 4⟩ (true, "") 0 (by decide) rfl (by decide)

/-- C1 counterexample: concretely, with the leader failed at `XML` before
recording an `EXEROOT`, the follower's XML phase is launched (the cost
query returns 1, not `none`) and then fails on the missing-exeroot
assertion — a different message than the "Cannot use build for test T1
because it failed" the claim requires for a leader `FAIL` at a gated
phase. -/
theorem build_group_gating_cex :
    get_test_status PHASES (XML, FAIL) (some XML) = FAIL ∧
    get_procs_needed ⟨false, false, 4⟩ PHASES false (XML, FAIL) XML [] false 4 =
      some 1 ∧
    xml_phase_group_part false none "/exe" =
      .error "Should already have exeroot" ∧
    "Should already have exeroot" ≠
      "Cannot use build for test T1 because it failed" := by
  refine ⟨rfl, by decide, rfl, by decide⟩

theorem update_advance_ok (phases : List Phase) (hnd : phases.Nodup)
    (st : TestState) (next : Phase) (hmem : st.1 ∈ phases) (hst : st.2 = PASS)
    (hnx : nextPhase phases st.1 = some next) :
    update_test_status phases st next PEND = .ok (next, PEND) := by
  have hnmem : next ∈ phases := List.get?_mem hnx
  have hidx : phases.indexOf next = phases.indexOf st.1 + 1 :=
    indexOf_eq_of_get? hnd hnx
  have hne : st.1 ≠ next := by
    intro he
    rw [he] at hidx
    omega
  simp only [update_test_status, pyIndex, if_pos hnmem, if_pos hmem]
  rw [if_neg hne, if_neg (by simp [hst]), if_neg (by simp), if_pos (by omega)]

theorem update_complete_ok (phases : List Phase) (p : Phase) (s : Status)
    (hp : p ∈ phases) (hs : s ≠ PEND) :
    update_test_status phases (p, PEND) p s = .ok (p, s) := by
  simp [update_test_status, pyIndex, hp, hs]

/-- C5: when the next phase's core cost exceeds the whole pool, a phase
other than `RUN` is a fatal scheduler bug, and a `RUN` phase is failed on
the spot: `SUBMIT=PASS` and `RUN=FAIL` go to the status file, the
in-memory state becomes `(RUN, FAIL)`, and the call returns `True` so the
producer loop carries on with the other tests. -/
theorem over_budget_run (phases : List Phase) (hnd : phases.Nodup)
    (st : TestState) (next : Phase) (c pool avail : Nat)
    (hmem : st.1 ∈ phases) (hst : st.2 = PASS)
    (hnx : nextPhase phases st.1 = some next) (hc : c > pool) :
    (next ≠ RUN → ∃ m,
      producer_indv_test_launch phases st (some c) pool avail = .fatal m) ∧
    (next = RUN →
      producer_indv_test_launch phases st (some c) pool avail =
        .instantFail [(SUBMIT, PASS), (RUN, FAIL)] (RUN, FAIL) ∧
      (producer_indv_test_launch phases st (some c) pool avail).returnedTrue
        = true) := by
  have hnmem : next ∈ phases := List.get?_mem hnx
  have hupd1 : update_test_status phases st next PEND = .ok (next, PEND) :=
    update_advance_ok phases hnd st next hmem hst hnx
  have hupd2 : update_test_status phases (next, PEND) next FAIL =
      .ok (next, FAIL) :=
    update_complete_ok phases next FAIL hnmem (by simp)
  constructor
  · intro hne
    have heq : producer_indv_test_launch phases st (some c) pool avail =
        .fatal ("Test phase " ++ reprStr next ++
          " requested more (" ++ toString c ++ ") than entire pool") := by
      simp [producer_indv_test_launch, hst, hnx, hc, hne]
    exact ⟨_, heq⟩
  · intro he
    subst he
    constructor
    · simp [producer_indv_test_launch, hst, hnx, hc, hupd1, hupd2]
    · simp [producer_indv_test_launch, hst, hnx, hc, hupd1, hupd2,
        LaunchResult.returnedTrue]

theorem over_budget_run_witness :
    (RUN ≠ RUN → ∃ m,
      producer_indv_test_launch PHASES (MODEL_BUILD, PASS) (some 99) 10 10 =
        .fatal m) ∧
    (RUN = RUN →
      producer_indv_test_launch PHASES (MODEL_BUILD, PASS) (some 99) 10 10 =
        .instantFail [(SUBMIT, PASS), (RUN, FAIL)] (RUN, FAIL) ∧
      (producer_indv_test_launch PHASES (MODEL_BUILD, PASS)
        (some 99) 10 10).returnedTrue = true) :=
  over_budget_run PHASES (by decide) (MODEL_BUILD, PASS) RUN 99 10 10
    (by decide) rfl (by decide) (by decide)

theorem consumer_chain_eq (nr nb isFirst : Bool) (res : Phase → Bool)
    (h1 : res MODEL_BUILD = true) (h2 : nr = false) (h3 : nb = false) :
    consumer nr nb isFirst res MODEL_BUILD =
      consumerSolo nb isFirst MODEL_BUILD (res MODEL_BUILD) ++
        Event.stateUpdate RUN PEND :: consumer nr nb isFirst res RUN := by
  subst h2 h3
  rw [consumer]
  simp [h1]

theorem consumer_no_chain_eq (nr nb isFirst : Bool) (res : Phase → Bool)
    (phase : Phase)
    (h : ¬((res phase && !nr && !nb) = true ∧ phase = MODEL_BUILD)) :
    consumer nr nb isFirst res phase =
      consumerSolo nb isFirst phase (res phase) := by
  rw [consumer, dif_neg h]

theorem consumerSolo_fileWrite_phase :
    ∀ (nb isFirst : Bool) (ph : Phase) (suc : Bool) (p : Phase) (s : Status),
      Event.fileWrite p s ∈ consumerSolo nb isFirst ph suc →
      p = ph ∧ consumerWritesStatusFile isFirst p = true := by decide

theorem consumerSolo_fileWrite_exists :
    ∀ (nb isFirst : Bool) (ph : Phase) (suc : Bool),
      consumerWritesStatusFile isFirst ph = true →
      ∃ s, Event.fileWrite ph s ∈ consumerSolo nb isFirst ph suc := by decide

theorem consumerSolo_phaseExec :
    ∀ (nb isFirst : Bool) (ph : Phase) (suc : Bool) (p : Phase),
      Event.phaseExec p ∈ consumerSolo nb isFirst ph suc ↔ p = ph := by decide

/-- C7: when the worker's `MODEL_BUILD` phase succeeds and neither
`no_run` nor `no_batch` is set, the very same `_consumer` invocation sets
the test to `(RUN, PEND)` and runs the RUN phase synchronously — its trace
is the model-build trace followed directly by the RUN-consumer trace, with
no hand-off to the producer; under any other condition the RUN phase is
never executed by that worker. -/
theorem model_build_chains_run (nr nb isFirst : Bool) (res : Phase → Bool) :
    (res MODEL_BUILD = true → nr = false → nb = false →
      consumer nr nb isFirst res MODEL_BUILD =
        consumerSolo nb isFirst MODEL_BUILD (res MODEL_BUILD) ++
          Event.stateUpdate RUN PEND :: consumer nr nb isFirst res RUN ∧
      Event.stateUpdate RUN PEND ∈ consumer nr nb isFirst res MODEL_BUILD ∧
      Event.phaseExec RUN ∈ consumer nr nb isFirst res MODEL_BUILD) ∧
    (res MODEL_BUILD = false ∨ nr = true ∨ nb = true →
      Event.phaseExec RUN ∉ consumer nr nb isFirst res MODEL_BUILD) := by
  constructor
  · intro h1 h2 h3
    have heq := consumer_chain_eq nr nb isFirst res h1 h2 h3
    have hrun : consumer nr nb isFirst res RUN =
        consumerSolo nb isFirst RUN (res RUN) :=
      consumer_no_chain_eq nr nb isFirst res RUN (by simp)
    refine ⟨heq, ?_, ?_⟩
    · rw [heq]
      exact List.mem_append_right _ (List.mem_cons_self _ _)
    · rw [heq]
      refine List.mem_append_right _ (List.mem_cons_of_mem _ ?_)
      rw [hrun]
      exact (consumerSolo_phaseExec nb isFirst RUN (res RUN) RUN).mpr rfl
  · intro h
    have hcond : ¬((res MODEL_BUILD && !nr && !nb) = true ∧
        MODEL_BUILD = MODEL_BUILD) := by
      rcases h with h | h | h <;> simp [h]
    rw [consumer_no_chain_eq nr nb isFirst res MODEL_BUILD hcond]
    intro hmem
    exact absurd ((consumerSolo_phaseExec nb isFirst MODEL_BUILD
      (res MODEL_BUILD) RUN).mp hmem) (by decide)

theorem model_build_chains_run_witness :
    ((fun _ : Phase => true) MODEL_BUILD = true → false = false →
        false = false →
      consumer false false true (fun _ => true) MODEL_BUILD =
        consumerSolo false true MODEL_BUILD
            ((fun _ : Phase => true) MODEL_BUILD) ++
          Event.stateUpdate RUN PEND ::
            consumer false false true (fun _ => true) RUN ∧
      Event.stateUpdate RUN PEND ∈
        consumer false false true (fun _ => true) MODEL_BUILD ∧
      Event.phaseExec RUN ∈
        consumer false false true (fun _ => true) MODEL_BUILD) ∧
    ((fun _ : Phase => true) MODEL_BUILD = false ∨ false = true ∨
        false = true →
      Event.phaseExec RUN ∉
        consumer false false true (fun _ => true) MODEL_BUILD) :=
  model_build_chains_run false false true (fun _ => true)

/-- The frame claim C6 states about durable status writes, phrased over
the embedded phase runner: every `TestStatus` write the scheduler performs
is for one of the scheduler-owned phase transitions (`CREATE_NEWCASE`,
`XML`, follower builds). -/
def onlyOwnedWritesClaim : Prop :=
  ∀ (hasB : Bool) (subRes : Bool × String) (w : Phase × Status),
    w ∈ (run_phase hasB subRes).writes →
    consumerWritesStatusFile false w.1 = true

/-- C6 counterexample: the `B`-opt run phase makes the scheduler itself
write `SUBMIT=PASS` (and `RUN=PASS`) to the status file — phases outside
the claimed exact write set. -/
theorem only_owned_writes_cex : ¬ onlyOwnedWritesClaim := by
  intro h
  have := h true (true, "") (SUBMIT, PASS) (by decide)
  simp [consumerWritesStatusFile] at this

/-- C6 (amended): the completion-time write in `_consumer` happens for
exactly the claimed phases — every file write in a consumer trace is for
the completed phase and satisfies the ownership rule, and whenever the
rule holds a write occurs — but the scheduler additionally writes the
status file from inside phase methods: the `B`-opt run skip writes
`SUBMIT=PASS, RUN=PASS`, a single-exe setup verification failure writes
`SETUP=FAIL`, and a fatal `cmpgen_namelists` status in the leader's
sharedlib build writes `SETUP=FAIL` (and the over-budget RUN launch
writes `SUBMIT=PASS, RUN=FAIL`, see the C5 theorem). -/
theorem scheduler_status_file_writes (nr nb isFirst : Bool)
    (res : Phase → Bool) (phase : Phase) (hasB se sok : Bool)
    (subRes setupRes buildRes : Bool × String)
    (phases : List Phase) (leaderSt : TestState) (L : String)
    (cmpgenStat : Int) :
    (∀ p st, Event.fileWrite p st ∈ consumer nr nb isFirst res phase →
      p = phase ∧ consumerWritesStatusFile isFirst p = true) ∧
    (consumerWritesStatusFile isFirst phase = true →
      ∃ st, Event.fileWrite phase st ∈ consumer nr nb isFirst res phase) ∧
    ((run_phase hasB subRes).writes =
      if hasB then [(SUBMIT, PASS), (RUN, PASS)] else []) ∧
    ((setup_phase_tail se sok setupRes).writes =
      if se ∧ ¬ sok then [(SETUP, FAIL)] else []) ∧
    ((sharedlib_build_phase phases true L leaderSt buildRes cmpgenStat).writes
      = if cmpgenStat = 0 ∨ cmpgenStat = TESTS_FAILED_ERR_CODE then []
        else [(SETUP, FAIL)]) := by
  refine ⟨?_, ?_, ?_, ?_, ?_⟩
  · intro p st hmem
    by_cases hcond : (res phase && !nr && !nb) = true ∧ phase = MODEL_BUILD
    · obtain ⟨hb, hp⟩ := hcond
      subst hp
      rw [Bool.and_eq_true, Bool.and_eq_true, Bool.not_eq_true',
        Bool.not_eq_true'] at hb
      obtain ⟨⟨h1, h2⟩, h3⟩ := hb
      rw [consumer_chain_eq nr nb isFirst res h1 h2 h3] at hmem
      rcases List.mem_append.mp hmem with hm | hm
      · exact consumerSolo_fileWrite_phase nb isFirst MODEL_BUILD
          (res MODEL_BUILD) p st hm
      · rcases List.mem_cons.mp hm with he | hm2
        · exact absurd he (by simp)
        · rw [consumer_no_chain_eq nr nb isFirst res RUN (by simp)] at hm2
          obtain ⟨hpr, hrule⟩ := consumerSolo_fileWrite_phase nb isFirst RUN
            (res RUN) p st hm2
          subst hpr
          exact absurd hrule (by cases isFirst <;> decide)
    · rw [consumer_no_chain_eq nr nb isFirst res phase hcond] at hmem
      exact consumerSolo_fileWrite_phase nb isFirst phase (res phase) p st hmem
  · intro hrule
    obtain ⟨st, hst⟩ :=
      consumerSolo_fileWrite_exists nb isFirst phase (res phase) hrule
    refine ⟨st, ?_⟩
    by_cases hcond : (res phase && !nr && !nb) = true ∧ phase = MODEL_BUILD
    · obtain ⟨hb, hp⟩ := hcond
      subst hp
      rw [Bool.and_eq_true, Bool.and_eq_true, Bool.not_eq_true',
        Bool.not_eq_true'] at hb
      obtain ⟨⟨h1, h2⟩, h3⟩ := hb
      rw [consumer_chain_eq nr nb isFirst res h1 h2 h3]
      exact List.mem_append_left _ hst
    · rw [consumer_no_chain_eq nr nb isFirst res phase hcond]
      exact hst
  · cases hasB <;> rfl
  · cases se <;> cases sok <;> rfl
  · by_cases h : cmpgenStat = 0 ∨ cmpgenStat = TESTS_FAILED_ERR_CODE <;>
      simp [sharedlib_build_phase, h]

theorem update_test_status_shapes_witness :
    (update_test_status PHASES (INIT, PASS) CREATE_NEWCASE PEND =
        Except.ok (CREATE_NEWCASE, PEND) ↔
      ((INIT = CREATE_NEWCASE ∧ PASS = PEND ∧
          ((PEND : Status) = PASS ∨ (PEND : Status) = FAIL)) ∨
       (IsImmSuccessor PHASES INIT CREATE_NEWCASE ∧
          (PASS : Status) = PASS ∧ (PEND : Status) = PEND))) ∧
    (∀ st', update_test_status PHASES (INIT, PASS) CREATE_NEWCASE PEND =
      Except.ok st' → st' = (CREATE_NEWCASE, PEND)) :=
  update_test_status_shapes PHASES (by decide) (INIT, PASS) CREATE_NEWCASE
    PEND (by decide)

theorem scheduler_status_file_writes_witness :
    (∀ p st, Event.fileWrite p st ∈
        consumer false false false (fun _ => true) XML →
      p = XML ∧ consumerWritesStatusFile false p = true) ∧
    (consumerWritesStatusFile false XML = true →
      ∃ st, Event.fileWrite XML st ∈
        consumer false false false (fun _ => true) XML) ∧
    ((run_phase true (true, "")).writes =
      if true then [(SUBMIT, PASS), (RUN, PASS)] else []) ∧
    ((setup_phase_tail true false (true, "")).writes =
      if true = true ∧ ¬ false = true then [(SETUP, FAIL)] else []) ∧
    ((sharedlib_build_phase PHASES true "T1" (XML, PASS) (true, "") 5).writes
      = if (5 : Int) = 0 ∨ (5 : Int) = TESTS_FAILED_ERR_CODE then []
        else [(SETUP, FAIL)]) :=
  scheduler_status_file_writes false false false (fun _ => true) XML true
    true false (true, "") (true, "") (true, "") PHASES (XML, PASS) "T1" 5

/-- The behaviour claim C4 states for the retry loop: after a
"bad interpreter" failure the command is re-invoked at most once, so at
most two invocations are ever consumed. -/
def retryAtMostOnceClaim : Prop :=
  ∀ (rs : List CmdResult) (b : Bool) (e : String) (n : Nat),
    shell_cmd_for_phase rs = some (b, e, n) → n ≤ 2

/-- C4 counterexample: two consecutive "bad interpreter" failures followed
by a success make the loop consume three invocations (and succeed), so the
retry is not bounded by one. -/
theorem retry_at_most_once_cex : ¬ retryAtMostOnceClaim := by
  intro h
  have h3 := h [⟨1, "/bin/sh: bad interpreter: x", "e1"⟩,
    ⟨1, "/bin/sh: bad interpreter: x", "e2"⟩, ⟨0, "built", "e3"⟩]
    true "e3" 3 (by decide)
  omega

/-- C4 (amended): the loop retries WITHOUT BOUND while failures contain
"bad interpreter": it skips the longest prefix of bad-interpreter
failures, then answers from the first decisive invocation — success for a
zero exit, failure with the error output otherwise — and never returns
while every invocation so far was a bad-interpreter failure. -/
theorem shell_cmd_retries_while_bad_interpreter (rs : List CmdResult) :
    shell_cmd_for_phase rs = shellCmdFirstDecisive rs := by
  induction rs with
  | nil => rfl
  | cons r rest ih =>
    by_cases hb : badInterpRetry r = true
    · have hb' := hb
      rw [badInterpRetry, Bool.and_eq_true, decide_eq_true_eq] at hb'
      obtain ⟨h1, h2⟩ := hb'
      simp only [shell_cmd_for_phase, if_pos h1, h2, if_true, ih,
        shellCmdFirstDecisive, List.dropWhile_cons, List.takeWhile_cons, hb]
      cases hdrop : rest.dropWhile badInterpRetry with
      | nil => rfl
      | cons r' t => rfl
    · rw [badInterpRetry, Bool.and_eq_true, decide_eq_true_eq] at hb
      push_neg at hb
      simp only [shellCmdFirstDecisive, List.dropWhile_cons,
        List.takeWhile_cons]
      by_cases h0 : r.rc = 0
      · have hnot : ¬ (r.rc ≠ 0) := by omega
        have hbad : badInterpRetry r = false := by
          rw [badInterpRetry]
          simp [h0]
        rw [hbad]
        simp only [shell_cmd_for_phase, if_neg hnot, Bool.false_eq_true,
          if_false]
        simp [h0]
      · have h2 : containsBadInterpreter r.output = false := by
          cases hc : containsBadInterpreter r.output
          · rfl
          · exact absurd hc (by simpa using hb h0)
        have hbad : badInterpRetry r = false := by
          rw [badInterpRetry]
          simp [h2]
        rw [hbad]
        simp only [shell_cmd_for_phase, if_pos h0, h2, Bool.false_eq_true,
          if_false]
        simp [h0]

theorem foldl_coreAdvance_error (phases : List Phase) (e : String) :
    ∀ l : List StoreRec, l.foldl (coreAdvance phases) (.error e) = .error e := by
  intro l
  induction l with
  | nil => rfl
  | cons r t ih => simpa [coreAdvance] using ih

theorem replayGo_eq_spec (phases : List Phase) (store : List StoreRec) :
    ∀ (l : List StoreRec) (st : TestState),
      replayGo phases st store l =
        match (((l.filter (fun r => decide (r.phase ∈ CORE_PHASES))).takeWhile
            (fun r => !stopRec r)).filter
            (fun r => decide (r.phase ≠ SUBMIT))).foldl
            (coreAdvance phases) (Except.ok st) with
        | .error e => .error e
        | .ok s => .ok (s,
            match (l.filter
                (fun r => decide (r.phase ∈ CORE_PHASES))).dropWhile
                (fun r => !stopRec r) with
            | [] => store
            | r :: _ =>
              if r.status = FAIL
              then storeSetStatus store r.phase PEND (some TEST_RERUN_COMMENT)
              else store) := by
  intro l
  induction l with
  | nil => intro st; rfl
  | cons r rest ih =>
    intro st
    by_cases hcore : r.phase ∈ CORE_PHASES
    · by_cases hstop : r.status = PEND ∨ r.status = FAIL
      · have hs : stopRec r = true := by
          unfold stopRec
          rcases hstop with h | h <;> simp [h]
        simp only [replayGo, if_pos hcore, if_pos hstop]
        rw [List.filter_cons_of_pos (by simpa using hcore),
          List.takeWhile_cons_of_neg (by simp [hs]),
          List.dropWhile_cons_of_neg (by simp [hs])]
        rfl
      · have hs : stopRec r = false := by
          unfold stopRec
          push_neg at hstop
          simp [hstop.1, hstop.2]
        by_cases hsub : r.phase = SUBMIT
        · simp only [replayGo, if_pos hcore, if_neg hstop,
            if_neg (by simp [hsub] : ¬ r.phase ≠ SUBMIT)]
          rw [List.filter_cons_of_pos (by simpa using hcore),
            List.takeWhile_cons_of_pos (by simp [hs]),
            List.filter_cons_of_neg (by simp [hsub]),
            List.dropWhile_cons_of_pos (by simp [hs])]
          exact ih st
        · simp only [replayGo, if_pos hcore, if_neg hstop, if_pos hsub]
          rw [List.filter_cons_of_pos (by simpa using hcore),
            List.takeWhile_cons_of_pos (by simp [hs]),
            List.filter_cons_of_pos (by simpa using hsub),
            List.dropWhile_cons_of_pos (by simp [hs]),
            List.foldl_cons]
          have hsplit : (match update_test_status phases st r.phase PEND with
              | Except.error e => Except.error e
              | Except.ok st1 =>
                match update_test_status phases st1 r.phase r.status with
                | Except.error e => Except.error e
                | Except.ok st2 => replayGo phases st2 store rest) =
              (match coreAdvance phases (Except.ok st) r with
               | Except.error e => Except.error e
               | Except.ok st2 => replayGo phases st2 store rest) := by
            cases h : update_test_status phases st r.phase PEND with
            | error e => simp [coreAdvance, h]
            | ok st1 => simp [coreAdvance, h]
          rw [hsplit]
          generalize coreAdvance phases (Except.ok st) r = v
          cases v with
          | error e => simp [foldl_coreAdvance_error]
          | ok st2 => exact ih st2
    · simp only [replayGo, if_neg hcore]
      rw [List.filter_cons_of_neg (by simpa using hcore)]
      exact ih st

/-- C3: the `use_existing` replay computes exactly the claimed resume
semantics — pre-mark `SHAREDLIB_BUILD=PEND` on forced rebuild; stop at the
first core record whose status is `PEND` or `FAIL`, rewriting a `FAIL`
record in the store to `PEND` with the rerun comment; let every earlier
passed core record except `SUBMIT` advance the in-memory state;
never treat a `SUBMIT` record as a phase transition. -/
theorem use_existing_replay_matches_spec (phases : List Phase)
    (store : List StoreRec) (fr : Bool) :
    use_existing_replay phases store fr = replaySpec phases store fr := by
  unfold use_existing_replay replaySpec
  exact replayGo_eq_spec phases _ _ (INIT, PASS)

end TestSched
